import Mathlib

/-!
Verification of the in-memory data-access and suggestion-lookup component of
the pokemon-api-service repository (src/services/pokemon-data.service.ts and
the pagination route of src/routes).  TypeScript/JavaScript operations are
shallowly embedded: JS strings become Lean `String` (ASCII-faithful case
mapping via `Char.toLower`/`Char.toUpper`, which match JS behaviour on the
basic latin range), JS numbers become `ℚ` (so that `Number.isInteger` and
order comparisons are expressible), nullable results become `Option`, and
thrown exceptions become `Except JsError`.  Structure fields that no modeled
operation consults (stats, abilities, flavor texts, ...) are omitted from the
record types; every field that any modeled operation reads is present.
-/

deriving instance DecidableEq for Except

/-- Errors thrown by the service code: `TypeError` (JS runtime error from
calling a method on null/undefined), and the three custom error classes
`ServiceNotInitializedError`, `ValidationError`, `DataLoadError`. -/
inductive JsError where
  | typeError
  | serviceNotInitialized
  | validationError
  | dataLoadError
  deriving DecidableEq, Repr

/-- Embedding of JS `String.prototype.toLowerCase` (basic-latin faithful):
map `Char.toLower` over the characters. -/
def jsToLower (s : String) : String := ⟨s.data.map Char.toLower⟩

/-- JS whitespace test used by `String.prototype.trim`. -/
def jsWhite (c : Char) : Bool := c.isWhitespace

/-- Embedding of JS `String.prototype.trim`: drop whitespace from both ends. -/
def jsTrim (s : String) : String :=
  ⟨((s.data.dropWhile jsWhite).reverse.dropWhile jsWhite).reverse⟩

/-- Auxiliary for `jsIncludes`: does `sub` occur as a contiguous run inside
`hay`? -/
def containsSub (hay sub : List Char) : Bool :=
  sub.isPrefixOf hay ||
    match hay with
    | [] => false
    | _ :: t => containsSub t sub

/-- Embedding of JS `haystack.includes(needle)`: substring containment. -/
def jsIncludes (haystack needle : String) : Bool :=
  containsSub haystack.data needle.data

/-- Embedding of the JS truthiness test on a `string | null` value:
`null` and the empty string are falsy. -/
def jsTruthyStr (o : Option String) : Bool :=
  match o with
  | none => false
  | some s => s ≠ ""

/-- Official-artwork sprite group (TS interface `Pokemon.sprites.other`). -/
structure OfficialArtwork where
  front_default : Option String
  front_shiny : Option String
  deriving DecidableEq, Repr

/-- The `other` sprite group of a Pokemon record. -/
structure SpritesOther where
  officialArtwork : OfficialArtwork
  deriving DecidableEq, Repr

/-- Sprite URLs of a Pokemon record (TS `Pokemon.sprites`); `string | null`
fields become `Option String`. -/
structure Sprites where
  front_default : Option String
  front_shiny : Option String
  front_female : Option String
  front_shiny_female : Option String
  back_default : Option String
  back_shiny : Option String
  back_female : Option String
  back_shiny_female : Option String
  other : SpritesOther
  deriving DecidableEq, Repr

/-- Primary entity record (TS interface `Pokemon`); fields not consulted by
the modeled operations are omitted. -/
structure Pokemon where
  id : Nat
  name : String
  sprites : Sprites
  deriving DecidableEq, Repr

/-- Species record (TS interface `PokemonSpecies`); only `id` and `name` are
consulted by the modeled operations. -/
structure PokemonSpecies where
  id : Nat
  name : String
  deriving DecidableEq, Repr

/-- Evolution chain record; only `id` is consulted. -/
structure EvolutionChain where
  id : Nat
  deriving DecidableEq, Repr

/-- Category (type) record; only `id` and `name` are consulted. -/
structure PokemonType where
  id : Nat
  name : String
  deriving DecidableEq, Repr

/-- A JS value held in the `displayName` field of a suggestion entry.  The
TS interface declares it `string`, but the loaded JSON is validated only at
the top level (`Array.isArray(data.pokemon)`), so at runtime any JS value
can occur there.  Non-string values are abstracted to their truthiness, the
only property the projection code consults before its `typeof` check sends
them down the fallback path. -/
inductive JsVal where
  | str (s : String)
  | other (truthy : Bool)
  deriving DecidableEq, Repr

/-- Suggestion index entry (TS interface `PokemonSuggestion`).  `name` is
kept a `String`: the filter discards entries whose `name` is not a string
before any entry reaches the projection, so non-string names only remove
entries.  `displayName`, by contrast, flows through the projection
dynamically typed, so it is modeled as a `JsVal`. -/
structure PokemonSuggestion where
  id : Nat
  name : String
  displayName : JsVal
  deriving DecidableEq, Repr

/-- Suggestion index metadata (TS interface `SuggestionsMetadata`). -/
structure SuggestionsMetadata where
  generatedAt : String
  totalCount : Nat
  generation : Nat
  description : String
  deriving DecidableEq, Repr

/-- Suggestion index (TS interface `SuggestionsData`). -/
structure SuggestionsData where
  metadata : SuggestionsMetadata
  pokemon : List PokemonSuggestion
  deriving DecidableEq, Repr

/-- Well-typed in-memory state of `PokemonDataService` as seen by the query
operations (the TS field declarations): four array collections plus the
nullable suggestion index. -/
structure ServiceState where
  pokemonData : List Pokemon
  speciesData : List PokemonSpecies
  evolutionChains : List EvolutionChain
  typeData : List PokemonType
  suggestionsData : Option SuggestionsData
  deriving DecidableEq, Repr

/-- `isInitialized()`: primary collection non-empty OR suggestion index
present. -/
def isInitialized (st : ServiceState) : Bool :=
  decide (0 < st.pokemonData.length) || st.suggestionsData.isSome

/-- A JS identifier argument of declared type `string | number`, together
with the `null`/`undefined` values the validation code guards against.
JS numbers are modeled as `ℚ` so that `Number.isInteger` (denominator 1)
and order comparisons are expressible. -/
inductive Ident where
  | num (q : ℚ)
  | str (s : String)
  | null
  | undef

/-- `transformImageUrls`: rewrite the sprite URLs of a record to point at the
local image server; a JS-falsy (null or empty) source URL yields null, the
official-artwork front URL is set unconditionally.  `baseUrl` models
`process.env.BASE_URL || default`. -/
def transformImageUrls (baseUrl : String) (p : Pokemon) : Pokemon :=
  { p with
    sprites := { p.sprites with
      front_default :=
        if jsTruthyStr p.sprites.front_default then
          some (baseUrl ++ "/images/pokemon/sprites/" ++ Nat.repr p.id ++ ".png")
        else none
      front_shiny :=
        if jsTruthyStr p.sprites.front_shiny then
          some (baseUrl ++ "/images/pokemon/sprites/shiny/" ++ Nat.repr p.id ++ ".png")
        else none
      back_default :=
        if jsTruthyStr p.sprites.back_default then
          some (baseUrl ++ "/images/pokemon/sprites/back/" ++ Nat.repr p.id ++ ".png")
        else none
      back_shiny :=
        if jsTruthyStr p.sprites.back_shiny then
          some (baseUrl ++ "/images/pokemon/sprites/back/shiny/" ++ Nat.repr p.id ++ ".png")
        else none
      other := { officialArtwork :=
        { front_default :=
            some (baseUrl ++ "/images/pokemon/official-artwork/" ++ Nat.repr p.id ++ ".png")
          front_shiny := none } } } }

/-- Body of `getPokemon` (the code inside its `try` block): input validation,
initialization check (throws `ServiceNotInitializedError`), then lookup by
exact id (positive-integer numbers only) or by trimmed lowercased name /
stringified id. -/
def getPokemonTry (baseUrl : String) (st : ServiceState) (identifier : Ident) :
    Except JsError (Option Pokemon) :=
  match identifier with
  | .null => .ok none
  | .undef => .ok none
  | .num q =>
    if isInitialized st = false then .error .serviceNotInitialized
    else if q < 1 ∨ q.den ≠ 1 then .ok none
    else .ok ((st.pokemonData.find? fun p => (p.id : ℚ) == q).map
        (transformImageUrls baseUrl))
  | .str s =>
    if isInitialized st = false then .error .serviceNotInitialized
    else if (jsToLower (jsTrim s)).length = 0 then .ok none
    else .ok ((st.pokemonData.find? fun p =>
        jsToLower p.name == jsToLower (jsTrim s) || Nat.repr p.id == jsTrim s).map
      (transformImageUrls baseUrl))

/-- `getPokemon`: the surrounding `catch` turns `ServiceNotInitializedError`
into a null result and rethrows anything else. -/
def getPokemon (baseUrl : String) (st : ServiceState) (identifier : Ident) :
    Except JsError (Option Pokemon) :=
  match getPokemonTry baseUrl st identifier with
  | .error .serviceNotInitialized => .ok none
  | r => r

/-- `getPokemonSpecies`: numbers match by exact id with no validation;
strings are lowercased (NOT trimmed) and matched against the stored name or
the stringified id (compared against the original string); there is no
try/catch, so calling `.toLowerCase()` on `null`/`undefined` throws a
`TypeError` that propagates to the caller. -/
def getPokemonSpecies (st : ServiceState) (identifier : Ident) :
    Except JsError (Option PokemonSpecies) :=
  match identifier with
  | .num q => .ok (st.speciesData.find? fun s => (s.id : ℚ) == q)
  | .str s =>
    let name := jsToLower s
    .ok (st.speciesData.find? fun sp =>
      jsToLower sp.name == name || Nat.repr sp.id == s)
  | .null => .error .typeError
  | .undef => .error .typeError

/-- The argument of `getPokemonSuggestions` as the JS runtime may supply it:
a string, some non-string value, or a missing argument (`undefined`).  All
non-string cases are treated identically by the code
(`!query || typeof query !== 'string'`). -/
inductive QueryInput where
  | str (s : String)
  | nonString
  | missing

/-- JS `name.charAt(0).toUpperCase() + name.slice(1).toLowerCase()`:
capitalize the first character, lowercase the rest. -/
def capitalizeJS (s : String) : String :=
  match s.data with
  | [] => ""
  | c :: cs => ⟨c.toUpper :: cs.map Char.toLower⟩

/-- The per-match projection of `getPokemonSuggestions`: select
`displayName || name` by JS truthiness (a non-empty string or a truthy
non-string picks `displayName`; an empty string or falsy non-string falls
back to `name`); if the selected value is a string, capitalize it; if it is
not a string (`typeof name !== 'string'`), return the raw stored `name`
UNNORMALIZED as fallback — `name` is a string for every entry that reaches
this projection, the filter having checked it. -/
def normalizeSuggestion (p : PokemonSuggestion) : String :=
  match p.displayName with
  | .str s => if s = "" then capitalizeJS p.name else capitalizeJS s
  | .other true => p.name
  | .other false => capitalizeJS p.name

/-- Body of `getPokemonSuggestions` (the code inside its outer `try` block):
validation short-circuits (non-string, empty after trim, shorter than 3),
initialization check (throws `ServiceNotInitializedError`), absent
suggestion index short-circuits to empty, then case-insensitive substring
filter, display normalization, and truncation to 10. -/
def getPokemonSuggestionsTry (st : ServiceState) (query : QueryInput) :
    Except JsError (List String) :=
  match query with
  | .nonString => .ok []
  | .missing => .ok []
  | .str s =>
    if s = "" then .ok []
    else if (jsTrim s).length = 0 then .ok []
    else if (jsTrim s).length < 3 then .ok []
    else if isInitialized st = false then .error .serviceNotInitialized
    else
      match st.suggestionsData with
      | none => .ok []
      | some sd =>
        .ok (((sd.pokemon.filter fun p =>
            jsIncludes (jsToLower p.name) (jsToLower (jsTrim s))).map
          normalizeSuggestion).take 10)

/-- `getPokemonSuggestions`: the surrounding `catch` turns
`ServiceNotInitializedError` and `ValidationError` into an empty result and
rethrows anything else. -/
def getPokemonSuggestions (st : ServiceState) (query : QueryInput) :
    Except JsError (List String) :=
  match getPokemonSuggestionsTry st query with
  | .error .serviceNotInitialized => .ok []
  | .error .validationError => .ok []
  | r => r

/-- Embedding of JS `Array.prototype.slice(start, end)` on integer
arguments: negative indices count from the end, then both are clamped to
`[0, length]` and the (possibly empty) range between them is returned. -/
def jsSlice {α : Type} (l : List α) (start stop : Int) : List α :=
  let len : Int := l.length
  let s := if start < 0 then max (len + start) 0 else min start len
  let e := if stop < 0 then max (len + stop) 0 else min stop len
  (l.drop s.toNat).take (e.toNat - s.toNat)

/-- Name-plus-URL reference form used by the listing endpoints. -/
structure NamedAPIResource where
  name : String
  url : String
  deriving DecidableEq, Repr

/-- Result shape of `getAllPokemon`. -/
structure PokemonListResult where
  count : Nat
  results : List NamedAPIResource
  deriving DecidableEq, Repr

/-- The listing projection: name plus canonical lookup URL. -/
def pokemonRef (baseUrl : String) (p : Pokemon) : NamedAPIResource :=
  { name := p.name, url := baseUrl ++ "/api/v2/pokemon/" ++ Nat.repr p.id }

/-- `getAllPokemon(offset, limit)`: total count plus
`pokemonData.slice(offset, offset + limit)` projected to name and lookup
URL.  The service itself performs no clamping. -/
def getAllPokemon (baseUrl : String) (st : ServiceState) (offset limit : Int) :
    PokemonListResult :=
  { count := st.pokemonData.length
    results := (jsSlice st.pokemonData offset (offset + limit)).map
      (pokemonRef baseUrl) }

/-- Embedding of the route idiom `parseInt(q) || d`: a missing or
non-numeric query value (parseInt gives NaN, which is falsy) and an explicit
0 both fall back to the default. -/
def parseIntOr (q : Option Int) (d : Int) : Int :=
  match q with
  | none => d
  | some 0 => d
  | some n => n

/-- The GET /api/v2/pokemon route handler: offset defaults to 0, limit
defaults to 20 and is capped by `Math.min(limit, 100)`, then the service
`getAllPokemon` is called.  No lower clamping is performed on either value. -/
def listPokemonRoute (baseUrl : String) (st : ServiceState)
    (offsetQ limitQ : Option Int) : PokemonListResult :=
  getAllPokemon baseUrl st (parseIntOr offsetQ 0) (min (parseIntOr limitQ 20) 100)

/-!
Model of `loadData`.  During loading the TS fields are dynamically typed:
`JSON.parse` may return a non-array value, and the code assigns the parsed
value to the field BEFORE checking its shape, so a field can momentarily (or,
when the shape check throws and the error is swallowed, permanently) hold a
non-array value.  `JsonArr α` is the top-level shape of a parsed value
destined for an array collection: either an array of well-typed records or
some other JSON value (abstracted to a numeric tag, since the code never
inspects it beyond `Array.isArray`). -/

/-- Top-level shape of a parsed JSON value for an array-valued collection. -/
inductive JsonArr (α : Type) where
  | arr (items : List α)
  | nonArray (tag : Nat)
  deriving DecidableEq, Repr

/-- Top-level shape of a parsed JSON value for the suggestions file:
`null` (JS-falsy), a conforming object, or some other value that fails the
`!data || !data.pokemon || !Array.isArray(data.pokemon)` validation. -/
inductive JsonSugg where
  | jsNull
  | good (sd : SuggestionsData)
  | bad (tag : Nat)
  deriving DecidableEq, Repr

/-- State of one on-disk file as `loadData` encounters it: absent, present
but failing `JSON.parse`, or parsed to a value `v`. -/
inductive FileState (α : Type) where
  | missing
  | parseError
  | parsed (v : α)
  deriving DecidableEq, Repr

/-- The filesystem as consulted by `loadData`: existence of the data
directory and the five JSON files. -/
structure DataDir where
  dirExists : Bool
  pokemonFile : FileState (JsonArr Pokemon)
  speciesFile : FileState (JsonArr PokemonSpecies)
  evolutionFile : FileState (JsonArr EvolutionChain)
  typesFile : FileState (JsonArr PokemonType)
  suggestionsFile : FileState JsonSugg
  deriving DecidableEq, Repr

/-- In-memory state of the service as `loadData` sees it: dynamically typed
fields that may hold a non-array value after a failed shape check.  On a
fresh instance the four collections are empty arrays and the suggestion
index is null. -/
structure RawState where
  pokemonData : JsonArr Pokemon
  speciesData : JsonArr PokemonSpecies
  evolutionChains : JsonArr EvolutionChain
  typeData : JsonArr PokemonType
  suggestionsData : JsonSugg
  deriving DecidableEq, Repr

/-- Does the suggestions validation
`!data || !data.pokemon || !Array.isArray(data.pokemon)` reject the parsed
value? -/
def suggShapeBad (v : JsonSugg) : Bool :=
  match v with
  | .jsNull => true
  | .good _ => false
  | .bad _ => true

/-- The secondary-file section of `loadData` (species, evolution chains,
types, suggestions), reached only when the primary load did not throw.  Each
file: if present, parse and ASSIGN the parsed value to the field, then check
its top-level shape; a parse error or shape error is caught, logged and
swallowed, so a shape error leaves the bad parsed value in the field.
Missing files and parse errors leave the field untouched. -/
def loadSecondary (st : RawState) (fs : DataDir) : RawState :=
  let st1 :=
    match fs.speciesFile with
    | .parsed v => { st with speciesData := v }
    | _ => st
  let st2 :=
    match fs.evolutionFile with
    | .parsed v => { st1 with evolutionChains := v }
    | _ => st1
  let st3 :=
    match fs.typesFile with
    | .parsed v => { st2 with typeData := v }
    | _ => st2
  match fs.suggestionsFile with
  | .parsed v => { st3 with suggestionsData := v }
  | _ => st3

/-- `loadData`: throws `DataLoadError` when the data directory is absent;
loads the primary entities file, rethrowing (as a fatal `DataLoadError`) a
parse failure or a top-level-shape failure — the parsed value having already
been assigned in the latter case — which also skips the four secondary
files; a missing primary file is only a warning.  Returns the final field
state together with the thrown-or-ok outcome. -/
def loadData (st : RawState) (fs : DataDir) : RawState × Except JsError Unit :=
  if fs.dirExists = false then (st, .error .dataLoadError)
  else
    match fs.pokemonFile with
    | .missing => (loadSecondary st fs, .ok ())
    | .parseError => (st, .error .dataLoadError)
    | .parsed v =>
      let st1 := { st with pokemonData := v }
      match v with
      | .nonArray _ => (st1, .error .dataLoadError)
      | .arr _ => (loadSecondary st1 fs, .ok ())

/-- Does the primary entities file abort the load: present but either
unparsable or parsed to a non-array? -/
def entityFileFatal (f : FileState (JsonArr Pokemon)) : Bool :=
  match f with
  | .parseError => true
  | .parsed (.nonArray _) => true
  | _ => false

/-!
Specification-side definitions and concrete fixtures used by the theorems
below. -/

/-- The identifier-resolution predicate implemented by `getPokemon` for a
valid identifier: numbers match by exact id; strings match the stored name
case-insensitively after trimming, or the stringified id exactly. -/
def identMatchesPokemon (identifier : Ident) (p : Pokemon) : Bool :=
  match identifier with
  | .num q => (p.id : ℚ) == q
  | .str s => jsToLower p.name == jsToLower (jsTrim s) || Nat.repr p.id == jsTrim s
  | .null => false
  | .undef => false

/-- The underlying suggestion index of a state: the entry list when the
index is loaded, empty otherwise. -/
def suggestionIndex (st : ServiceState) : List PokemonSuggestion :=
  match st.suggestionsData with
  | some sd => sd.pokemon
  | none => []

/-- Display normalization invariant claimed for suggestion results: the
first character is unaffected by a further `toUpperCase` and every later
character is unaffected by a further `toLowerCase` (i.e. first character
uppercase, remainder lowercase, in the only sense JS case mapping can
guarantee for arbitrary characters). -/
def capNormalizedB (r : String) : Bool :=
  match r.data with
  | [] => true
  | c :: cs => c.toUpper == c && cs.all fun x => x.toLower == x

/-- Decode a list of decimal digit characters back to the number it
denotes; used to prove that `Nat.repr` is injective. -/
def digitsVal : List Char → Nat
  | [] => 0
  | c :: cs => (c.toNat - 48) * 10 ^ cs.length + digitsVal cs

/-- A sprite record with every URL null. -/
def noSprites : Sprites :=
  ⟨none, none, none, none, none, none, none, none, ⟨⟨none, none⟩⟩⟩

/-- Entity fixture with the given id and name. -/
def mkPokemon (i : Nat) (n : String) : Pokemon := ⟨i, n, noSprites⟩

/-- Suggestion index fixture with two generation-1 entries. -/
def sampleSuggestions : SuggestionsData :=
  ⟨⟨"2024-01-01", 2, 1, "fixture"⟩,
   [⟨25, "pikachu", .str "pikachu"⟩, ⟨172, "pichu", .str "pichu"⟩]⟩

/-- State whose suggestion index holds an entry with a truthy non-string
`displayName` (possible because loaded JSON is shape-checked only at the
top level). -/
def badDisplayNameState : ServiceState :=
  ⟨[mkPokemon 1 "bulbasaur"], [], [], [],
   some ⟨⟨"2024-01-01", 1, 1, "fixture"⟩, [⟨25, "pikachu", .other true⟩]⟩⟩

/-- Fully loaded service-state fixture. -/
def sampleState : ServiceState :=
  ⟨[mkPokemon 1 "bulbasaur", mkPokemon 25 "pikachu"],
   [⟨1, "bulbasaur"⟩], [], [], some sampleSuggestions⟩

/-- Uninitialized service-state fixture: no entities, no suggestion
index. -/
def emptyState : ServiceState := ⟨[], [], [], [], none⟩

/-- Three-entity fixture for the pagination counterexample. -/
def threePokemonState : ServiceState :=
  ⟨[mkPokemon 1 "bulbasaur", mkPokemon 2 "ivysaur", mkPokemon 3 "venusaur"],
   [], [], [], none⟩

/-- Fresh raw load state: empty arrays, null suggestion index. -/
def rawEmpty : RawState := ⟨.arr [], .arr [], .arr [], .arr [], .jsNull⟩

/-- Raw state holding previously-good species data. -/
def rawWithSpecies : RawState :=
  { rawEmpty with speciesData := .arr [⟨1, "bulbasaur"⟩] }

/-- Filesystem fixture: directory present, entities file good, species file
parses to a non-array, everything else missing. -/
def speciesShapeFailFiles : DataDir :=
  ⟨true, .parsed (.arr []), .parsed (.nonArray 0), .missing, .missing, .missing⟩

/-- Filesystem fixture: the data directory itself is missing (hence so is
every file). -/
def noDirFiles : DataDir :=
  ⟨false, .missing, .missing, .missing, .missing, .missing⟩

/-!
Helper lemmas: character case mapping, decimal representations, list
utilities. -/

theorem charOfNat_toNat {n : Nat} (h : n.isValidChar) : (Char.ofNat n).toNat = n := by
  rw [Char.ofNat, dif_pos h]
  simp [Char.ofNatAux, Char.toNat, UInt32.toNat, BitVec.toNat_ofNatLt]

theorem char_eq_of_toNat_eq {c d : Char} (h : c.toNat = d.toNat) : c = d := by
  apply Char.ext
  exact UInt32.ext h

theorem toLower_toNat (c : Char) :
    c.toLower.toNat = if 65 ≤ c.toNat ∧ c.toNat ≤ 90 then c.toNat + 32 else c.toNat := by
  rw [Char.toLower]
  split_ifs with h1
  · exact charOfNat_toNat (Or.inl (by omega))
  · rfl

theorem toUpper_toNat (c : Char) :
    c.toUpper.toNat = if 97 ≤ c.toNat ∧ c.toNat ≤ 122 then c.toNat - 32 else c.toNat := by
  rw [Char.toUpper]
  split_ifs with h1
  · exact charOfNat_toNat (Or.inl (by omega))
  · rfl

theorem toUpper_toUpper (c : Char) : c.toUpper.toUpper = c.toUpper := by
  apply char_eq_of_toNat_eq
  rw [toUpper_toNat c.toUpper, toUpper_toNat c]
  split_ifs <;> omega

theorem toLower_toLower (c : Char) : c.toLower.toLower = c.toLower := by
  apply char_eq_of_toNat_eq
  rw [toLower_toNat c.toLower, toLower_toNat c]
  split_ifs <;> omega

theorem isDigit_toNat {c : Char} (h : c.isDigit = true) :
    48 ≤ c.toNat ∧ c.toNat ≤ 57 := by
  simp [Char.isDigit] at h
  exact ⟨h.1, h.2⟩

theorem toLower_of_isDigit {c : Char} (h : c.isDigit = true) : c.toLower = c := by
  have hb := isDigit_toNat h
  apply char_eq_of_toNat_eq
  rw [toLower_toNat]
  split_ifs <;> omega

theorem not_white_of_isDigit {c : Char} (h : c.isDigit = true) :
    c.isWhitespace = false := by
  have hb := isDigit_toNat h
  have hs : c ≠ ' ' := fun he => absurd hb (by rw [he]; decide)
  have ht : c ≠ '\t' := fun he => absurd hb (by rw [he]; decide)
  have hr : c ≠ '\r' := fun he => absurd hb (by rw [he]; decide)
  have hn : c ≠ '\n' := fun he => absurd hb (by rw [he]; decide)
  simp [Char.isWhitespace, hs, ht, hr, hn]

theorem digitChar_isDigit {m : Nat} (h : m < 10) : (Nat.digitChar m).isDigit = true := by
  interval_cases m <;> decide

theorem toDigitsCore_digits (fuel n : Nat) (ds : List Char)
    (hds : ∀ c ∈ ds, c.isDigit = true) :
    ∀ c ∈ Nat.toDigitsCore 10 fuel n ds, c.isDigit = true := by
  induction fuel generalizing n ds with
  | zero => exact hds
  | succ fuel ih =>
    rw [Nat.toDigitsCore]
    split
    · intro c hc
      rcases List.mem_cons.mp hc with h1 | h1
      · rw [h1]; exact digitChar_isDigit (Nat.mod_lt n (by omega))
      · exact hds c h1
    · apply ih
      intro c hc
      rcases List.mem_cons.mp hc with h1 | h1
      · rw [h1]; exact digitChar_isDigit (Nat.mod_lt n (by omega))
      · exact hds c h1

theorem repr_all_digits (n : Nat) : ∀ c ∈ (Nat.repr n).data, c.isDigit = true := by
  rw [Nat.repr]
  exact toDigitsCore_digits (n + 1) n [] (by intro c hc; cases hc)

theorem map_eq_self_of {α : Type} (f : α → α) (l : List α)
    (h : ∀ a ∈ l, f a = a) : l.map f = l := by
  induction l with
  | nil => rfl
  | cons a t ih =>
    simp only [List.map_cons]
    rw [h a (List.mem_cons_self a t), ih fun x hx => h x (List.mem_cons_of_mem _ hx)]

theorem dropWhile_eq_self_of {α : Type} (p : α → Bool) (l : List α)
    (h : ∀ a ∈ l, p a = false) : l.dropWhile p = l := by
  cases l with
  | nil => rfl
  | cons a t =>
    rw [List.dropWhile_cons, if_neg]
    simp [h a (List.mem_cons_self a t)]

theorem find_first_unique {α : Type} (p : α → Bool) (l : List α) (e : α)
    (he : e ∈ l) (hpe : p e = true) (huniq : ∀ x ∈ l, p x = true → x = e) :
    l.find? p = some e := by
  induction l with
  | nil => cases he
  | cons a t ih =>
    rw [List.find?_cons]
    by_cases ha : p a = true
    · rw [ha]
      simp only
      rw [huniq a (List.mem_cons_self a t) ha]
    · have hf : p a = false := by simpa using ha
      rw [hf]
      simp only
      apply ih
      · rcases List.mem_cons.mp he with h1 | h1
        · rw [h1] at hpe; exact absurd hpe ha
        · exact h1
      · intro x hx hpx
        exact huniq x (List.mem_cons_of_mem _ hx) hpx

theorem digitChar_toNat {m : Nat} (h : m < 10) : (Nat.digitChar m).toNat = m + 48 := by
  interval_cases m <;> decide

theorem digitsVal_toDigitsCore (fuel : Nat) :
    ∀ n ds, n < fuel →
      digitsVal (Nat.toDigitsCore 10 fuel n ds) = n * 10 ^ ds.length + digitsVal ds := by
  induction fuel with
  | zero => intro n ds h; omega
  | succ fuel ih =>
    intro n ds h
    rw [Nat.toDigitsCore]
    split
    · rename_i hdiv
      show digitsVal (Nat.digitChar (n % 10) :: ds) = n * 10 ^ ds.length + digitsVal ds
      rw [digitsVal]
      rw [digitChar_toNat (Nat.mod_lt n (by omega))]
      have hn : n % 10 = n := by omega
      rw [hn]
      have h48 : n + 48 - 48 = n := by omega
      rw [h48]
    · rename_i hdiv
      rw [ih (n / 10) (Nat.digitChar (n % 10) :: ds) (by omega)]
      rw [digitsVal]
      rw [digitChar_toNat (Nat.mod_lt n (by omega))]
      rw [List.length_cons, pow_succ]
      have h48 : n % 10 + 48 - 48 = n % 10 := by omega
      rw [h48]
      have key : n / 10 * (10 ^ ds.length * 10) + n % 10 * 10 ^ ds.length
          = n * 10 ^ ds.length := by
        conv_rhs => rw [← Nat.div_add_mod n 10]
        ring
      rw [← Nat.add_assoc, key]

theorem digitsVal_repr (n : Nat) : digitsVal (Nat.repr n).data = n := by
  rw [Nat.repr]
  show digitsVal (Nat.toDigits 10 n) = n
  rw [Nat.toDigits]
  rw [digitsVal_toDigitsCore (n + 1) n [] (by omega)]
  simp [digitsVal]

theorem natRepr_inj {n m : Nat} (h : Nat.repr n = Nat.repr m) : n = m := by
  have hv : digitsVal (Nat.repr n).data = digitsVal (Nat.repr m).data := by rw [h]
  rw [digitsVal_repr, digitsVal_repr] at hv
  exact hv

theorem natRepr_ne_empty (n : Nat) : (Nat.repr n).data ≠ [] := by
  intro h
  have h0 : n = 0 := by
    have hv := digitsVal_repr n
    rw [h] at hv
    simpa [digitsVal] using hv.symm
  rw [h0] at h
  exact absurd h (by decide)

theorem data_ne_nil_of_ne_empty {s : String} (h : s ≠ "") : s.data ≠ [] := by
  intro hd
  apply h
  cases s with
  | mk d =>
    simp at hd
    rw [hd]

theorem jsToLower_repr (n : Nat) : jsToLower (Nat.repr n) = Nat.repr n := by
  rw [jsToLower]
  rw [map_eq_self_of _ _ fun c hc => toLower_of_isDigit (repr_all_digits n c hc)]

theorem jsTrim_repr (n : Nat) : jsTrim (Nat.repr n) = Nat.repr n := by
  have hnw : ∀ c ∈ (Nat.repr n).data, jsWhite c = false := by
    intro c hc
    rw [jsWhite]
    exact not_white_of_isDigit (repr_all_digits n c hc)
  rw [jsTrim]
  rw [dropWhile_eq_self_of _ _ hnw]
  rw [dropWhile_eq_self_of _ _ fun c hc => hnw c (List.mem_reverse.mp hc)]
  rw [List.reverse_reverse]

theorem jsToLower_length (s : String) : (jsToLower s).length = s.length := by
  rw [jsToLower]
  show (s.data.map Char.toLower).length = s.data.length
  rw [List.length_map]

theorem length_ne_zero_of_ne_empty {s : String} (h : s ≠ "") : s.length ≠ 0 := by
  show s.data.length ≠ 0
  intro hl
  exact data_ne_nil_of_ne_empty h (List.eq_nil_of_length_eq_zero hl)

theorem jsSlice_nonneg {α : Type} (l : List α) (a b : Int) (ha : 0 ≤ a) (hb : 0 ≤ b) :
    jsSlice l a (a + b) = (l.drop a.toNat).take b.toNat := by
  rw [jsSlice]
  rw [if_neg (by omega), if_neg (by omega)]
  by_cases hlen : a ≤ (l.length : Int)
  · rw [min_eq_left hlen]
    by_cases hend : a + b ≤ (l.length : Int)
    · rw [min_eq_left hend]
      congr 1
      omega
    · rw [min_eq_right (by omega)]
      have hdl : (l.drop a.toNat).length = l.length - a.toNat := List.length_drop _ _
      rw [List.take_of_length_le (by omega), List.take_of_length_le (by omega)]
  · rw [min_eq_right (by omega), min_eq_right (by omega)]
    have h1 : l.drop (l.length : Int).toNat = [] := by
      rw [Int.toNat_natCast]
      exact List.drop_length l
    have h2 : l.drop a.toNat = [] := List.drop_eq_nil_of_le (by omega)
    rw [h1, h2]
    simp

theorem loadSecondary_pokemonData (st : RawState) (fs : DataDir) :
    (loadSecondary st fs).pokemonData = st.pokemonData := by
  rw [loadSecondary]
  cases fs.speciesFile <;> cases fs.evolutionFile <;> cases fs.typesFile <;>
    cases fs.suggestionsFile <;> rfl

theorem loadSecondary_speciesData (st : RawState) (fs : DataDir) :
    (loadSecondary st fs).speciesData =
      match fs.speciesFile with
      | .parsed v => v
      | _ => st.speciesData := by
  rw [loadSecondary]
  cases fs.speciesFile <;> cases fs.evolutionFile <;> cases fs.typesFile <;>
    cases fs.suggestionsFile <;> rfl

theorem loadSecondary_evolutionChains (st : RawState) (fs : DataDir) :
    (loadSecondary st fs).evolutionChains =
      match fs.evolutionFile with
      | .parsed v => v
      | _ => st.evolutionChains := by
  rw [loadSecondary]
  cases fs.speciesFile <;> cases fs.evolutionFile <;> cases fs.typesFile <;>
    cases fs.suggestionsFile <;> rfl

theorem loadSecondary_typeData (st : RawState) (fs : DataDir) :
    (loadSecondary st fs).typeData =
      match fs.typesFile with
      | .parsed v => v
      | _ => st.typeData := by
  rw [loadSecondary]
  cases fs.speciesFile <;> cases fs.evolutionFile <;> cases fs.typesFile <;>
    cases fs.suggestionsFile <;> rfl

theorem loadSecondary_suggestionsData (st : RawState) (fs : DataDir) :
    (loadSecondary st fs).suggestionsData =
      match fs.suggestionsFile with
      | .parsed v => v
      | _ => st.suggestionsData := by
  rw [loadSecondary]
  cases fs.speciesFile <;> cases fs.evolutionFile <;> cases fs.typesFile <;>
    cases fs.suggestionsFile <;> rfl

theorem suggestionsTry_shape (st : ServiceState) (q : QueryInput) :
    (∃ ds : List PokemonSuggestion, List.Sublist ds (suggestionIndex st) ∧
      getPokemonSuggestionsTry st q = .ok ((ds.map normalizeSuggestion).take 10)) ∨
    getPokemonSuggestionsTry st q = .error .serviceNotInitialized := by
  cases q with
  | nonString => exact Or.inl ⟨[], List.nil_sublist _, rfl⟩
  | missing => exact Or.inl ⟨[], List.nil_sublist _, rfl⟩
  | str s =>
    rw [getPokemonSuggestionsTry]
    split_ifs with h0 h1 h2 h3
    · exact Or.inl ⟨[], List.nil_sublist _, rfl⟩
    · exact Or.inl ⟨[], List.nil_sublist _, rfl⟩
    · exact Or.inl ⟨[], List.nil_sublist _, rfl⟩
    · exact Or.inr rfl
    · cases hsd : st.suggestionsData with
      | none => exact Or.inl ⟨[], List.nil_sublist _, rfl⟩
      | some sd =>
        refine Or.inl ⟨sd.pokemon.filter fun p =>
          jsIncludes (jsToLower p.name) (jsToLower (jsTrim s)), ?_, ?_⟩
        · rw [suggestionIndex, hsd]
          exact List.filter_sublist _
        · rfl

theorem suggestions_shape (st : ServiceState) (q : QueryInput) :
    ∃ ds : List PokemonSuggestion, List.Sublist ds (suggestionIndex st) ∧
      getPokemonSuggestions st q = .ok ((ds.map normalizeSuggestion).take 10) := by
  rcases suggestionsTry_shape st q with ⟨ds, hsub, heq⟩ | herr
  · refine ⟨ds, hsub, ?_⟩
    rw [getPokemonSuggestions, heq]
  · refine ⟨[], List.nil_sublist _, ?_⟩
    rw [getPokemonSuggestions, herr]
    rfl

theorem capNormalizedB_capitalizeJS (s : String) :
    capNormalizedB (capitalizeJS s) = true := by
  rw [capitalizeJS]
  cases hd : s.data with
  | nil => rfl
  | cons c cs =>
    rw [capNormalizedB]
    show (c.toUpper.toUpper == c.toUpper && (cs.map Char.toLower).all fun x =>
      x.toLower == x) = true
    rw [Bool.and_eq_true, beq_iff_eq]
    refine ⟨toUpper_toUpper c, ?_⟩
    rw [List.all_eq_true]
    intro x hx
    rcases List.mem_map.mp hx with ⟨y, _, hy⟩
    rw [beq_iff_eq, ← hy]
    exact toLower_toLower y

theorem getPokemon_of_try_error (baseUrl : String) (st : ServiceState) (i : Ident)
    (h : getPokemonTry baseUrl st i = .error .serviceNotInitialized) :
    getPokemon baseUrl st i = .ok none := by
  unfold getPokemon
  rw [h]

theorem getPokemon_of_try_ok (baseUrl : String) (st : ServiceState) (i : Ident)
    (v : Option Pokemon) (h : getPokemonTry baseUrl st i = .ok v) :
    getPokemon baseUrl st i = .ok v := by
  unfold getPokemon
  rw [h]

/-- C7: `getPokemonSuggestions` returns the empty array, without throwing,
for every non-string or missing input, for every input that is empty after
trimming, and for every input whose trimmed length is under 3 characters;
the checks run in that order (as embedded in
`getPokemonSuggestionsTry`) before any matching, so the result is empty for
every suggestion-index state. -/
theorem c7_suggestions_input_validation (st : ServiceState) (q : QueryInput)
    (h : match q with | .str s => (jsTrim s).length < 3 | _ => True) :
    getPokemonSuggestions st q = .ok [] := by
  have htry : getPokemonSuggestionsTry st q = .ok [] := by
    cases q with
    | nonString => rfl
    | missing => rfl
    | str s =>
      have hlt : (jsTrim s).length < 3 := h
      rw [getPokemonSuggestionsTry]
      by_cases h0 : s = ""
      · rw [if_pos h0]
      · rw [if_neg h0]
        by_cases h1 : (jsTrim s).length = 0
        · rw [if_pos h1]
        · rw [if_neg h1, if_pos hlt]
  rw [getPokemonSuggestions, htry]

theorem c7_suggestions_input_validation_witness :
    getPokemonSuggestions sampleState (.str "ab") = .ok [] ∧
    getPokemonSuggestions sampleState (.str "   ") = .ok [] ∧
    getPokemonSuggestions sampleState .nonString = .ok [] :=
  ⟨c7_suggestions_input_validation sampleState (.str "ab") (by decide),
   c7_suggestions_input_validation sampleState (.str "   ") (by decide),
   c7_suggestions_input_validation sampleState .nonString trivial⟩

/-- C8: for every input and every suggestion-index state,
`getPokemonSuggestions` returns (without throwing) at most 10 entries, and
the result is a sublist of the projected underlying index, i.e. matches
appear in the index's relative order. -/
theorem c8_suggestions_limit_and_order (st : ServiceState) (q : QueryInput) :
    ∃ l, getPokemonSuggestions st q = .ok l ∧ l.length ≤ 10 ∧
      List.Sublist l ((suggestionIndex st).map normalizeSuggestion) := by
  obtain ⟨ds, hsub, heq⟩ := suggestions_shape st q
  refine ⟨(ds.map normalizeSuggestion).take 10, heq, ?_, ?_⟩
  · rw [List.length_take]
    exact min_le_left _ _
  · exact (List.take_sublist _ _).trans (hsub.map _)

/-- C4 counterexample: an index entry whose `displayName` is truthy but not
a string takes the projection's `typeof` fallback and is returned as the
RAW stored name, unnormalized: the query result "pikachu" has a lowercase
first character, refuting the claim that every result string is
capitalization-normalized for every suggestion-index state. -/
theorem c4_counterexample :
    getPokemonSuggestions badDisplayNameState (.str "pik") =
      .ok ["pikachu"] ∧
    capNormalizedB "pikachu" = false := by
  refine ⟨by decide, by decide⟩

/-- C4 amended: every string in a `getPokemonSuggestions` result is the
projection of some entry of the underlying index; when that entry's
`displayName` is a string or JS-falsy, the result is capitalization-
normalized (first character fixed by `toUpperCase`, remainder fixed by
`toLowerCase`), but when the `displayName` is truthy and not a string, the
result is the entry's raw stored name, returned unnormalized as
fallback. -/
theorem c4_suggestions_capitalized (st : ServiceState) (q : QueryInput)
    (l : List String) (h : getPokemonSuggestions st q = .ok l) :
    ∀ r ∈ l, ∃ p ∈ suggestionIndex st,
      r = normalizeSuggestion p ∧
      (p.displayName = .other true → r = p.name) ∧
      (p.displayName ≠ .other true → capNormalizedB r = true) := by
  obtain ⟨ds, hsub, heq⟩ := suggestions_shape st q
  rw [heq] at h
  have hl : (ds.map normalizeSuggestion).take 10 = l := Except.ok.inj h
  intro r hr
  rw [← hl] at hr
  have hr2 : r ∈ ds.map normalizeSuggestion := List.take_subset _ _ hr
  rcases List.mem_map.mp hr2 with ⟨p, hpds, hp⟩
  refine ⟨p, hsub.subset hpds, hp.symm, ?_, ?_⟩
  · intro hdn
    rw [← hp, normalizeSuggestion, hdn]
  · intro hdn
    rw [← hp, normalizeSuggestion]
    cases hdnv : p.displayName with
    | str s =>
      show capNormalizedB
        (if s = "" then capitalizeJS p.name else capitalizeJS s) = true
      by_cases hs : s = ""
      · rw [if_pos hs]
        exact capNormalizedB_capitalizeJS p.name
      · rw [if_neg hs]
        exact capNormalizedB_capitalizeJS s
    | other b =>
      cases b with
      | false => exact capNormalizedB_capitalizeJS p.name
      | true => exact absurd hdnv hdn

theorem c4_suggestions_capitalized_witness :
    getPokemonSuggestions sampleState (.str "PIK") = .ok ["Pikachu"] ∧
    ∀ r ∈ ["Pikachu"], ∃ p ∈ suggestionIndex sampleState,
      r = normalizeSuggestion p ∧
      (p.displayName = .other true → r = p.name) ∧
      (p.displayName ≠ .other true → capNormalizedB r = true) :=
  ⟨by decide,
   c4_suggestions_capitalized sampleState (.str "PIK") ["Pikachu"] (by decide)⟩

/-- C10: on a state with no entities and no suggestion index (the
not-initialized state), `getPokemon` resolves every identifier to null and
`getPokemonSuggestions` resolves every input to the empty array — the
internal `ServiceNotInitializedError` is caught at the operation boundary
and never reaches the caller. -/
theorem c10_not_initialized_graceful (baseUrl : String) (st : ServiceState)
    (h1 : st.pokemonData = []) (h2 : st.suggestionsData = none) :
    (∀ identifier : Ident, getPokemon baseUrl st identifier = .ok none) ∧
    (∀ q : QueryInput, getPokemonSuggestions st q = .ok []) := by
  have hinit : isInitialized st = false := by
    rw [isInitialized, h1, h2]
    rfl
  constructor
  · intro identifier
    cases identifier with
    | null => rfl
    | undef => rfl
    | num q =>
      apply getPokemon_of_try_error
      simp only [getPokemonTry]
      rw [if_pos hinit]
    | str s =>
      apply getPokemon_of_try_error
      simp only [getPokemonTry]
      rw [if_pos hinit]
  · intro q
    obtain ⟨ds, hsub, heq⟩ := suggestions_shape st q
    have hidx : suggestionIndex st = [] := by
      simp only [suggestionIndex]
      rw [h2]
    rw [hidx] at hsub
    rw [List.sublist_nil.mp hsub] at heq
    exact heq

theorem c10_not_initialized_graceful_witness :
    getPokemon "" emptyState (.num 25) = .ok none ∧
    getPokemonSuggestions emptyState (.str "pik") = .ok [] :=
  ⟨(c10_not_initialized_graceful "" emptyState rfl rfl).1 (.num 25),
   (c10_not_initialized_graceful "" emptyState rfl rfl).2 (.str "pik")⟩

/-- C6: `getPokemon` returns null without throwing for every identifier that
matches no loaded entity, and in particular for null, undefined,
non-positive or non-integer numbers, and strings that are empty after
trimming — for every state. -/
theorem c6_invalid_or_absent_not_found (baseUrl : String) (st : ServiceState) :
    (∀ identifier : Ident,
      (∀ p ∈ st.pokemonData, identMatchesPokemon identifier p = false) →
      getPokemon baseUrl st identifier = .ok none) ∧
    getPokemon baseUrl st .null = .ok none ∧
    getPokemon baseUrl st .undef = .ok none ∧
    (∀ q : ℚ, q < 1 ∨ q.den ≠ 1 → getPokemon baseUrl st (.num q) = .ok none) ∧
    (∀ s : String, jsTrim s = "" → getPokemon baseUrl st (.str s) = .ok none) := by
  refine ⟨?_, rfl, rfl, ?_, ?_⟩
  · intro identifier hno
    cases identifier with
    | null => rfl
    | undef => rfl
    | num q =>
      by_cases hinit : isInitialized st = false
      · apply getPokemon_of_try_error
        simp only [getPokemonTry]
        rw [if_pos hinit]
      · apply getPokemon_of_try_ok
        simp only [getPokemonTry]
        rw [if_neg hinit]
        by_cases hval : q < 1 ∨ q.den ≠ 1
        · rw [if_pos hval]
        · rw [if_neg hval]
          have hf : st.pokemonData.find? (fun p => (p.id : ℚ) == q) = none := by
            apply List.find?_eq_none.mpr
            intro x hx
            have hm := hno x hx
            simp only [identMatchesPokemon] at hm
            simp [hm]
          rw [hf]
          rfl
    | str s =>
      by_cases hinit : isInitialized st = false
      · apply getPokemon_of_try_error
        simp only [getPokemonTry]
        rw [if_pos hinit]
      · apply getPokemon_of_try_ok
        simp only [getPokemonTry]
        rw [if_neg hinit]
        by_cases hlen : (jsToLower (jsTrim s)).length = 0
        · rw [if_pos hlen]
        · rw [if_neg hlen]
          have hf : st.pokemonData.find? (fun p =>
              jsToLower p.name == jsToLower (jsTrim s) ||
                Nat.repr p.id == jsTrim s) = none := by
            apply List.find?_eq_none.mpr
            intro x hx
            have hm := hno x hx
            simp only [identMatchesPokemon] at hm
            simp [hm]
          rw [hf]
          rfl
  · intro q hq
    by_cases hinit : isInitialized st = false
    · apply getPokemon_of_try_error
      simp only [getPokemonTry]
      rw [if_pos hinit]
    · apply getPokemon_of_try_ok
      simp only [getPokemonTry]
      rw [if_neg hinit, if_pos hq]
  · intro s hs
    by_cases hinit : isInitialized st = false
    · apply getPokemon_of_try_error
      simp only [getPokemonTry]
      rw [if_pos hinit]
    · apply getPokemon_of_try_ok
      simp only [getPokemonTry]
      rw [if_neg hinit]
      have hlen : (jsToLower (jsTrim s)).length = 0 := by
        rw [hs]
        rfl
      rw [if_pos hlen]

theorem c6_invalid_or_absent_not_found_witness :
    getPokemon "" sampleState (.str "zzz") = .ok none ∧
    getPokemon "" sampleState (.num (-2)) = .ok none ∧
    getPokemon "" sampleState (.str "  ") = .ok none :=
  ⟨(c6_invalid_or_absent_not_found "" sampleState).1 (.str "zzz") (by decide),
   (c6_invalid_or_absent_not_found "" sampleState).2.2.2.1 (-2) (Or.inl (by decide)),
   (c6_invalid_or_absent_not_found "" sampleState).2.2.2.2 "  " (by decide)⟩

/-- C5 counterexample: `getPokemonSpecies` does NOT follow the getPokemon
policy.  A null identifier throws a `TypeError` instead of returning
not-found, and a string with surrounding whitespace is not trimmed, so
" bulbasaur" fails to find the species named "bulbasaur" even though
`getPokemon` would find the entity of that name. -/
theorem c5_counterexample :
    getPokemonSpecies sampleState .null = .error .typeError ∧
    getPokemonSpecies sampleState (.str " bulbasaur") = .ok none ∧
    getPokemon "" sampleState (.str " bulbasaur") =
      .ok (some (transformImageUrls "" (mkPokemon 1 "bulbasaur"))) := by
  refine ⟨rfl, by decide, by decide⟩

/-- C5 amended: `getPokemonSpecies` matches numbers by exact id with no
positivity or integrality validation (an invalid numeric id simply matches
nothing when stored ids are positive, still without throwing); string inputs
are lowercased but NOT trimmed and matched against the stored name or the
stringified id, and never throw; null/undefined inputs throw a `TypeError`
instead of returning not-found. -/
theorem c5_species_resolution (st : ServiceState) :
    getPokemonSpecies st .null = .error .typeError ∧
    getPokemonSpecies st .undef = .error .typeError ∧
    ((∀ sp ∈ st.speciesData, 1 ≤ sp.id) → ∀ q : ℚ, q < 1 ∨ q.den ≠ 1 →
      getPokemonSpecies st (.num q) = .ok none) ∧
    (∀ s : String, ∃ o, getPokemonSpecies st (.str s) = .ok o) := by
  refine ⟨rfl, rfl, ?_, ?_⟩
  · intro hpos q hq
    simp only [getPokemonSpecies]
    have hf : st.speciesData.find? (fun sp => (sp.id : ℚ) == q) = none := by
      apply List.find?_eq_none.mpr
      intro sp hsp
      simp only [beq_iff_eq]
      intro heq
      rcases hq with hlt | hden
      · have h1 : (1 : ℚ) ≤ (sp.id : ℚ) := by
          exact_mod_cast hpos sp hsp
        rw [heq] at h1
        exact absurd hlt (by linarith)
      · rw [← heq] at hden
        exact hden (Rat.den_natCast sp.id)
    rw [hf]
  · intro s
    exact ⟨_, rfl⟩

theorem c5_species_resolution_witness :
    getPokemonSpecies sampleState .null = .error .typeError ∧
    getPokemonSpecies sampleState (.num (-2)) = .ok none :=
  ⟨(c5_species_resolution sampleState).1,
   (c5_species_resolution sampleState).2.2.1 (by decide) (-2) (Or.inl (by decide))⟩

/-- C9: for a loaded entity of a well-formed collection (entity names are
stored trimmed, lowercase, non-empty and unique; ids are unique; no name
equals a stringified id), looking the entity up by its name and by its id
rendered as a string return the same record — the entity itself with
transformed image URLs. -/
theorem c9_name_and_stringified_id_agree (baseUrl : String) (st : ServiceState)
    (e : Pokemon) (hmem : e ∈ st.pokemonData)
    (hlower : ∀ p ∈ st.pokemonData, jsToLower p.name = p.name)
    (htrim : ∀ p ∈ st.pokemonData, jsTrim p.name = p.name)
    (hne : ∀ p ∈ st.pokemonData, p.name ≠ "")
    (hnames : ∀ p ∈ st.pokemonData, ∀ r ∈ st.pokemonData, p.name = r.name → p = r)
    (hids : ∀ p ∈ st.pokemonData, ∀ r ∈ st.pokemonData, p.id = r.id → p = r)
    (hcollide : ∀ p ∈ st.pokemonData, ∀ r ∈ st.pokemonData,
      p.name ≠ Nat.repr r.id) :
    getPokemon baseUrl st (.str e.name) =
      .ok (some (transformImageUrls baseUrl e)) ∧
    getPokemon baseUrl st (.str (Nat.repr e.id)) =
      .ok (some (transformImageUrls baseUrl e)) := by
  have hinit : ¬ isInitialized st = false := by
    have hpos : 0 < st.pokemonData.length :=
      List.length_pos.mpr (List.ne_nil_of_mem hmem)
    simp [isInitialized, hpos]
  constructor
  · apply getPokemon_of_try_ok
    simp only [getPokemonTry]
    rw [if_neg hinit]
    rw [htrim e hmem, hlower e hmem]
    rw [if_neg (length_ne_zero_of_ne_empty (hne e hmem))]
    have hfind : st.pokemonData.find?
        (fun p => jsToLower p.name == e.name || Nat.repr p.id == e.name)
          = some e := by
      apply find_first_unique _ _ _ hmem
      · rw [hlower e hmem]
        simp
      · intro x hx hpx
        rw [Bool.or_eq_true] at hpx
        rcases hpx with hb | hb
        · have hxe : x.name = e.name := by
            rw [← hlower x hx]
            exact beq_iff_eq.mp hb
          exact hnames x hx e hmem hxe
        · exact absurd (beq_iff_eq.mp hb).symm (hcollide e hmem x hx)
    rw [hfind]
    rfl
  · apply getPokemon_of_try_ok
    simp only [getPokemonTry]
    rw [if_neg hinit]
    rw [jsTrim_repr e.id, jsToLower_repr e.id]
    have hrne : Nat.repr e.id ≠ "" := by
      intro hh
      apply natRepr_ne_empty e.id
      rw [hh]
    rw [if_neg (length_ne_zero_of_ne_empty hrne)]
    have hfind : st.pokemonData.find?
        (fun p => jsToLower p.name == Nat.repr e.id ||
          Nat.repr p.id == Nat.repr e.id) = some e := by
      apply find_first_unique _ _ _ hmem
      · simp
      · intro x hx hpx
        rw [Bool.or_eq_true] at hpx
        rcases hpx with hb | hb
        · have hxe : x.name = Nat.repr e.id := by
            rw [← hlower x hx]
            exact beq_iff_eq.mp hb
          exact absurd hxe (hcollide x hx e hmem)
        · exact hids x hx e hmem (natRepr_inj (beq_iff_eq.mp hb))
    rw [hfind]
    rfl

theorem c9_name_and_stringified_id_agree_witness :
    getPokemon "" sampleState (.str "pikachu") =
      .ok (some (transformImageUrls "" (mkPokemon 25 "pikachu"))) ∧
    getPokemon "" sampleState (.str "25") =
      .ok (some (transformImageUrls "" (mkPokemon 25 "pikachu"))) :=
  c9_name_and_stringified_id_agree "" sampleState (mkPokemon 25 "pikachu")
    (by decide) (by decide) (by decide) (by decide) (by decide) (by decide)
    (by decide)

/-- C2 counterexample: the route clamps neither the offset from below nor a
negative limit to the default.  A requested offset of -1 is passed straight
to `Array.prototype.slice`, which counts it from the END of the collection:
on a three-entity collection the claim (offset clamped to 0, default limit
20) predicts all three references, but the code returns only the last one;
and a requested limit of -5 yields an empty page instead of the default 20
entries. -/
theorem c2_counterexample :
    (listPokemonRoute "" threePokemonState (some (-1)) none).results =
      [pokemonRef "" (mkPokemon 3 "venusaur")] ∧
    (listPokemonRoute "" threePokemonState (some (-1)) none).results ≠
      (threePokemonState.pokemonData.take 20).map (pokemonRef "") ∧
    (listPokemonRoute "" threePokemonState none (some (-5))).results = [] ∧
    (threePokemonState.pokemonData.take 20).map (pokemonRef "") ≠ [] := by
  refine ⟨by decide, by decide, by decide, by decide⟩

/-- C2 amended: the route resolves a missing, unparsable or zero offset to
0 and a missing, unparsable or zero limit to 20, caps the limit at 100, and
performs no further clamping; whenever the resolved offset and resolved
limit are nonnegative, the result is the total count plus the slice
`[offset, offset + limit)` of the collection in load order projected to
name plus lookup URL. -/
theorem c2_pagination (baseUrl : String) (st : ServiceState)
    (offsetQ limitQ : Option Int)
    (ho : 0 ≤ parseIntOr offsetQ 0)
    (hl : 0 ≤ min (parseIntOr limitQ 20) 100) :
    (listPokemonRoute baseUrl st offsetQ limitQ).count =
      st.pokemonData.length ∧
    (listPokemonRoute baseUrl st offsetQ limitQ).results =
      ((st.pokemonData.drop (parseIntOr offsetQ 0).toNat).take
        (min (parseIntOr limitQ 20) 100).toNat).map (pokemonRef baseUrl) := by
  constructor
  · rfl
  · show (jsSlice st.pokemonData (parseIntOr offsetQ 0)
      (parseIntOr offsetQ 0 + min (parseIntOr limitQ 20) 100)).map
        (pokemonRef baseUrl) = _
    rw [jsSlice_nonneg _ _ _ ho hl]

theorem c2_pagination_witness :
    (listPokemonRoute "" threePokemonState (some 1) (some 2)).count = 3 ∧
    (listPokemonRoute "" threePokemonState (some 1) (some 2)).results =
      ((threePokemonState.pokemonData.drop 1).take 2).map (pokemonRef "") :=
  ⟨(c2_pagination "" threePokemonState (some 1) (some 2)
      (by decide) (by decide)).1,
   (c2_pagination "" threePokemonState (some 1) (some 2)
      (by decide) (by decide)).2⟩

theorem loadData_result (st : RawState) (fs : DataDir) :
    (loadData st fs).2 =
      if fs.dirExists = false ∨ entityFileFatal fs.pokemonFile = true then
        .error .dataLoadError
      else .ok () := by
  rw [loadData]
  by_cases hd : fs.dirExists = false
  · rw [if_pos hd, if_pos (Or.inl hd)]
  · rw [if_neg hd]
    cases hpf : fs.pokemonFile with
    | missing =>
      rw [if_neg (by simp [hd, entityFileFatal])]
    | parseError =>
      have hc : fs.dirExists = false ∨ entityFileFatal FileState.parseError = true :=
        Or.inr rfl
      rw [if_pos hc]
    | parsed v =>
      cases v with
      | nonArray t =>
        have hc : fs.dirExists = false ∨
            entityFileFatal (FileState.parsed (JsonArr.nonArray t)) = true :=
          Or.inr rfl
        rw [if_pos hc]
      | arr l => rw [if_neg (by simp [hd, entityFileFatal])]

theorem loadData_speciesData (st : RawState) (fs : DataDir) :
    (loadData st fs).1.speciesData =
      if fs.dirExists = false ∨ entityFileFatal fs.pokemonFile = true then
        st.speciesData
      else match fs.speciesFile with
      | .parsed v => v
      | _ => st.speciesData := by
  rw [loadData]
  by_cases hd : fs.dirExists = false
  · rw [if_pos hd, if_pos (Or.inl hd)]
  · rw [if_neg hd]
    cases hpf : fs.pokemonFile with
    | missing =>
      rw [if_neg (by simp [hd, entityFileFatal]), loadSecondary_speciesData]
    | parseError =>
      have hc : fs.dirExists = false ∨ entityFileFatal FileState.parseError = true :=
        Or.inr rfl
      rw [if_pos hc]
    | parsed v =>
      cases v with
      | nonArray t =>
        have hc : fs.dirExists = false ∨
            entityFileFatal (FileState.parsed (JsonArr.nonArray t)) = true :=
          Or.inr rfl
        rw [if_pos hc]
      | arr l =>
        rw [if_neg (by simp [hd, entityFileFatal]), loadSecondary_speciesData]

theorem loadData_evolutionChains (st : RawState) (fs : DataDir) :
    (loadData st fs).1.evolutionChains =
      if fs.dirExists = false ∨ entityFileFatal fs.pokemonFile = true then
        st.evolutionChains
      else match fs.evolutionFile with
      | .parsed v => v
      | _ => st.evolutionChains := by
  rw [loadData]
  by_cases hd : fs.dirExists = false
  · rw [if_pos hd, if_pos (Or.inl hd)]
  · rw [if_neg hd]
    cases hpf : fs.pokemonFile with
    | missing =>
      rw [if_neg (by simp [hd, entityFileFatal]), loadSecondary_evolutionChains]
    | parseError =>
      have hc : fs.dirExists = false ∨ entityFileFatal FileState.parseError = true :=
        Or.inr rfl
      rw [if_pos hc]
    | parsed v =>
      cases v with
      | nonArray t =>
        have hc : fs.dirExists = false ∨
            entityFileFatal (FileState.parsed (JsonArr.nonArray t)) = true :=
          Or.inr rfl
        rw [if_pos hc]
      | arr l =>
        rw [if_neg (by simp [hd, entityFileFatal]), loadSecondary_evolutionChains]

theorem loadData_typeData (st : RawState) (fs : DataDir) :
    (loadData st fs).1.typeData =
      if fs.dirExists = false ∨ entityFileFatal fs.pokemonFile = true then
        st.typeData
      else match fs.typesFile with
      | .parsed v => v
      | _ => st.typeData := by
  rw [loadData]
  by_cases hd : fs.dirExists = false
  · rw [if_pos hd, if_pos (Or.inl hd)]
  · rw [if_neg hd]
    cases hpf : fs.pokemonFile with
    | missing =>
      rw [if_neg (by simp [hd, entityFileFatal]), loadSecondary_typeData]
    | parseError =>
      have hc : fs.dirExists = false ∨ entityFileFatal FileState.parseError = true :=
        Or.inr rfl
      rw [if_pos hc]
    | parsed v =>
      cases v with
      | nonArray t =>
        have hc : fs.dirExists = false ∨
            entityFileFatal (FileState.parsed (JsonArr.nonArray t)) = true :=
          Or.inr rfl
        rw [if_pos hc]
      | arr l =>
        rw [if_neg (by simp [hd, entityFileFatal]), loadSecondary_typeData]

theorem loadData_suggestionsData (st : RawState) (fs : DataDir) :
    (loadData st fs).1.suggestionsData =
      if fs.dirExists = false ∨ entityFileFatal fs.pokemonFile = true then
        st.suggestionsData
      else match fs.suggestionsFile with
      | .parsed v => v
      | _ => st.suggestionsData := by
  rw [loadData]
  by_cases hd : fs.dirExists = false
  · rw [if_pos hd, if_pos (Or.inl hd)]
  · rw [if_neg hd]
    cases hpf : fs.pokemonFile with
    | missing =>
      rw [if_neg (by simp [hd, entityFileFatal]), loadSecondary_suggestionsData]
    | parseError =>
      have hc : fs.dirExists = false ∨ entityFileFatal FileState.parseError = true :=
        Or.inr rfl
      rw [if_pos hc]
    | parsed v =>
      cases v with
      | nonArray t =>
        have hc : fs.dirExists = false ∨
            entityFileFatal (FileState.parsed (JsonArr.nonArray t)) = true :=
          Or.inr rfl
        rw [if_pos hc]
      | arr l =>
        rw [if_neg (by simp [hd, entityFileFatal]), loadSecondary_suggestionsData]

/-- C1 counterexample: a reload that finds a secondary file which parses but
has the wrong top-level shape does NOT keep the previous in-memory value:
`loadData` assigns the parsed value to the field before the shape check
throws, so previously-good species data is replaced by the non-array value
(the load itself completes, the error being swallowed). -/
theorem c1_counterexample :
    (loadData rawWithSpecies speciesShapeFailFiles).2 = .ok () ∧
    (loadData rawWithSpecies speciesShapeFailFiles).1.speciesData =
      .nonArray 0 ∧
    rawWithSpecies.speciesData ≠ .nonArray 0 := by
  refine ⟨by decide, by decide, by decide⟩

/-- C1 amended: a secondary collection (species, evolution chains, types,
suggestion index) keeps its previous in-memory value when its file is
missing or fails to JSON-parse; but when the file parses to a value of the
wrong top-level shape, the collection is overwritten with that parsed value
before the failure is caught (shown here for the species collection, whose
file is read whenever the primary load did not abort). -/
theorem c1_secondary_retention (st : RawState) (fs : DataDir) :
    ((fs.speciesFile = .missing ∨ fs.speciesFile = .parseError) →
      (loadData st fs).1.speciesData = st.speciesData) ∧
    ((fs.evolutionFile = .missing ∨ fs.evolutionFile = .parseError) →
      (loadData st fs).1.evolutionChains = st.evolutionChains) ∧
    ((fs.typesFile = .missing ∨ fs.typesFile = .parseError) →
      (loadData st fs).1.typeData = st.typeData) ∧
    ((fs.suggestionsFile = .missing ∨ fs.suggestionsFile = .parseError) →
      (loadData st fs).1.suggestionsData = st.suggestionsData) ∧
    (fs.dirExists = true → entityFileFatal fs.pokemonFile = false →
      ∀ v, fs.speciesFile = .parsed v →
        (loadData st fs).1.speciesData = v) := by
  refine ⟨?_, ?_, ?_, ?_, ?_⟩
  · intro h
    rw [loadData_speciesData]
    by_cases hc : fs.dirExists = false ∨ entityFileFatal fs.pokemonFile = true
    · rw [if_pos hc]
    · rw [if_neg hc]
      rcases h with h | h <;> rw [h]
  · intro h
    rw [loadData_evolutionChains]
    by_cases hc : fs.dirExists = false ∨ entityFileFatal fs.pokemonFile = true
    · rw [if_pos hc]
    · rw [if_neg hc]
      rcases h with h | h <;> rw [h]
  · intro h
    rw [loadData_typeData]
    by_cases hc : fs.dirExists = false ∨ entityFileFatal fs.pokemonFile = true
    · rw [if_pos hc]
    · rw [if_neg hc]
      rcases h with h | h <;> rw [h]
  · intro h
    rw [loadData_suggestionsData]
    by_cases hc : fs.dirExists = false ∨ entityFileFatal fs.pokemonFile = true
    · rw [if_pos hc]
    · rw [if_neg hc]
      rcases h with h | h <;> rw [h]
  · intro hdir hfatal v hv
    rw [loadData_speciesData, if_neg (by simp [hdir, hfatal]), hv]

theorem c1_secondary_retention_witness :
    (loadData rawWithSpecies
      ⟨true, .parsed (.arr []), .missing, .missing, .missing, .missing⟩).1.speciesData =
      rawWithSpecies.speciesData :=
  (c1_secondary_retention rawWithSpecies
    ⟨true, .parsed (.arr []), .missing, .missing, .missing, .missing⟩).1
    (Or.inl rfl)

/-- C3 counterexample: load() can raise a fatal error although the entities
file is not "present but failing": when the data directory itself does not
exist (so every file, the entities file included, is missing), loadData
throws a fatal `DataLoadError`, contradicting the claim that a missing file
is never fatal and that the entities file is the only fatal condition. -/
theorem c3_counterexample :
    noDirFiles.pokemonFile = .missing ∧
    (loadData rawEmpty noDirFiles).2 = .error .dataLoadError :=
  ⟨rfl, rfl⟩

/-- C3 amended: provided the data directory exists, load() raises a fatal
error if and only if the primary entities file is present but fails to load
(JSON-parse failure or non-array top-level shape); a missing file is never
fatal, and when the primary load does not abort, every other file that
parses is still read and assigned, regardless of failures among its
peers. -/
theorem c3_fatal_only_entities (st : RawState) (fs : DataDir)
    (hdir : fs.dirExists = true) :
    ((loadData st fs).2 = .ok () ↔ entityFileFatal fs.pokemonFile = false) ∧
    (entityFileFatal fs.pokemonFile = false →
      (∀ v, fs.speciesFile = .parsed v →
        (loadData st fs).1.speciesData = v) ∧
      (∀ v, fs.evolutionFile = .parsed v →
        (loadData st fs).1.evolutionChains = v) ∧
      (∀ v, fs.typesFile = .parsed v →
        (loadData st fs).1.typeData = v) ∧
      (∀ v, fs.suggestionsFile = .parsed v →
        (loadData st fs).1.suggestionsData = v)) := by
  have hnd : ¬ fs.dirExists = false := by
    rw [hdir]
    simp
  constructor
  · rw [loadData_result]
    by_cases hf : entityFileFatal fs.pokemonFile = true
    · rw [if_pos (Or.inr hf)]
      constructor
      · intro h
        exact absurd h (by simp)
      · intro h
        rw [h] at hf
        exact absurd hf (by simp)
    · rw [if_neg (by simp [hnd, hf])]
      have hf2 : entityFileFatal fs.pokemonFile = false := by
        simpa using hf
      exact ⟨fun _ => hf2, fun _ => rfl⟩
  · intro hfatal
    refine ⟨?_, ?_, ?_, ?_⟩ <;> intro v hv
    · rw [loadData_speciesData, if_neg (by simp [hnd, hfatal]), hv]
    · rw [loadData_evolutionChains, if_neg (by simp [hnd, hfatal]), hv]
    · rw [loadData_typeData, if_neg (by simp [hnd, hfatal]), hv]
    · rw [loadData_suggestionsData, if_neg (by simp [hnd, hfatal]), hv]

theorem c3_fatal_only_entities_witness :
    (loadData rawEmpty
      ⟨true, .missing, .parsed (.arr [⟨1, "bulbasaur"⟩]), .missing, .missing,
        .missing⟩).2 = .ok () ∧
    (loadData rawEmpty
      ⟨true, .missing, .parsed (.arr [⟨1, "bulbasaur"⟩]), .missing, .missing,
        .missing⟩).1.speciesData = .arr [⟨1, "bulbasaur"⟩] :=
  ⟨((c3_fatal_only_entities rawEmpty
      ⟨true, .missing, .parsed (.arr [⟨1, "bulbasaur"⟩]), .missing, .missing,
        .missing⟩ rfl).1).mpr rfl,
   (((c3_fatal_only_entities rawEmpty
      ⟨true, .missing, .parsed (.arr [⟨1, "bulbasaur"⟩]), .missing, .missing,
        .missing⟩ rfl).2 rfl).1) (.arr [⟨1, "bulbasaur"⟩]) rfl⟩
